import Mathlib

/-!
Verification of `folly/tracing/AsyncStack.cpp`: a shallow embedding of the
async-stack root/frame machinery and proofs of its specified properties.

Pointers are modelled as natural numbers, with `0` playing the role of
`nullptr`.  Each thread's state holds the thread-local current-root pointer
(`currentThreadAsyncStackRoot.value`), a heap of `AsyncStackRoot` objects
indexed by address, and a trace of the atomic stores performed on the
thread-local pointer together with the memory ordering each store used.
-/

namespace AsyncStack

/-- A pointer-sized machine word; `0` models `nullptr`. -/
abbrev Ptr := Nat

/-- Modelled from the spec: the `AsyncStackFrame` record is declared in
`folly/tracing/AsyncStack.h`, which is not part of the excerpt.  Per the
spec's data model a frame carries a parent-frame reference, a
return-address/context slot (`instructionPointer`), and the `stackRoot`
word holding unset (`0`), a root address, or the suspended-leaf sentinel. -/
structure AsyncStackFrame where
  parentFrame : Ptr := 0
  instructionPointer : Ptr := 0
  stackRoot : Ptr := 0
deriving DecidableEq

/-- Modelled from the spec: the `AsyncStackRoot` record is declared in
`folly/tracing/AsyncStack.h`, which is not part of the excerpt.  Per the
spec's data model a root holds the top-of-chain frame pointer (initially
none), the link to the previously active root on the same thread, and the
captured native call-site context. -/
structure AsyncStackRoot where
  topFrame : Ptr := 0
  nextRoot : Ptr := 0
  stackFramePtr : Ptr := 0
  returnAddress : Ptr := 0
deriving DecidableEq

/-- Memory ordering of an atomic store, as written in the source
(`std::memory_order_release` / `std::memory_order_relaxed`). -/
inductive MemOrder where
  | relaxed : MemOrder
  | release : MemOrder
deriving DecidableEq

/-- The state of one thread: the thread-local current-root pointer
(`currentThreadAsyncStackRoot.value`, `0` when no root is installed), the
heap of root objects indexed by address, and the trace of stores performed
on the thread-local pointer, each tagged with the ordering used. -/
structure ThreadState where
  current : Ptr
  roots : Ptr → AsyncStackRoot
  writes : List (Ptr × MemOrder)

/-- A thread before any root has been installed (`value{nullptr}`). -/
def initThreadState : ThreadState :=
  { current := 0, roots := fun _ => {}, writes := [] }

/-- `AsyncStackRootHolder::get`: relaxed load of the thread-local pointer. -/
def holderGet (s : ThreadState) : Ptr := s.current

/-- `AsyncStackRootHolder::set`: release-ordered store of the thread-local
pointer. -/
def holderSet (s : ThreadState) (r : Ptr) : ThreadState :=
  { s with current := r, writes := s.writes ++ [(r, MemOrder.release)] }

/-- `AsyncStackRootHolder::set_relaxed`: relaxed store of the thread-local
pointer. -/
def holderSetRelaxed (s : ThreadState) (r : Ptr) : ThreadState :=
  { s with current := r, writes := s.writes ++ [(r, MemOrder.relaxed)] }

/-- `folly::tryGetCurrentAsyncStackRoot`: returns the thread's current root
pointer (possibly `0` = none). -/
def tryGetCurrentAsyncStackRoot (s : ThreadState) : Ptr := holderGet s

/-- `folly::exchangeCurrentAsyncStackRoot`: reads the current root, stores
`newRoot` (release), returns the old root together with the new state. -/
def exchangeCurrentAsyncStackRoot (newRoot : Ptr) (s : ThreadState) :
    Ptr × ThreadState :=
  (holderGet s, holderSet s newRoot)

/-- `folly::getCurrentAsyncStackRoot`: loads the current root and asserts it
is non-null before dereferencing; `none` models the assertion tripping
(debug build) / undefined dereference when no root is installed. -/
def getCurrentAsyncStackRoot (s : ThreadState) : Option Ptr :=
  let root := tryGetCurrentAsyncStackRoot s
  if root = 0 then none else some root

/-- `AsyncStackRoot::setStackFrameContext` (header; effect visible from the
spec's `nativeContext` description): records the native frame pointer and
return address of the installing call site. -/
def setStackFrameContext (r : AsyncStackRoot) (fp ra : Ptr) : AsyncStackRoot :=
  { r with stackFramePtr := fp, returnAddress := ra }

/-- `ScopedAsyncStackRoot::ScopedAsyncStackRoot`: the member root `root_`
(living at address `a`) is default-constructed, its call-site context is
recorded, its `nextRoot` is set to the thread's current root, and the
thread-local pointer is set to `a` with release ordering. -/
def scopedCtor (s : ThreadState) (a fp ra : Ptr) : ThreadState :=
  let root : AsyncStackRoot :=
    { setStackFrameContext {} fp ra with nextRoot := holderGet s }
  holderSet { s with roots := fun q => if q = a then root else s.roots q } a

/-- First destructor assertion:
`assert(currentThreadAsyncStackRoot.get() == &root_)`. -/
def dtorOrderingAssert (s : ThreadState) (a : Ptr) : Bool :=
  holderGet s == a

/-- Second destructor assertion:
`assert(root_.topFrame.load(std::memory_order_relaxed) == nullptr)`. -/
def dtorTopFrameAssert (s : ThreadState) (a : Ptr) : Bool :=
  (s.roots a).topFrame == 0

/-- `ScopedAsyncStackRoot::~ScopedAsyncStackRoot`, stores only: restores the
previous root via the relaxed-store variant. -/
def scopedDtor (s : ThreadState) (a : Ptr) : ThreadState :=
  holderSetRelaxed s (s.roots a).nextRoot

/-- `ScopedAsyncStackRoot::~ScopedAsyncStackRoot` in a debug build: both
assertions are checked, then the previous root is restored with a relaxed
store; `none` models an assertion failure. -/
def scopedDtorChecked (s : ThreadState) (a : Ptr) : Option ThreadState :=
  if dtorOrderingAssert s a && dtorTopFrameAssert s a then
    some (scopedDtor s a)
  else
    none

/-- Modelled from the spec: `AsyncStackRoot::activateFrame` is declared in
the header, which is not part of the excerpt.  Per the spec it binds the
given frame as the new chain's leaf: the root at `a` gets `framePtr` as its
`topFrame`. -/
def activateFrame (s : ThreadState) (a framePtr : Ptr) : ThreadState :=
  { s with
    roots := fun q =>
      if q = a then { s.roots q with topFrame := framePtr } else s.roots q }

/-- `folly::resumeCoroutineWithNewAsyncStackRoot`: constructs a scoped root
(at address `a`, capturing context `fp`/`ra`), activates `framePtr` under
it, runs the coroutine body `resume` (arbitrary external code, modelled as a
state transformer), and lets the scoped root's destructor run. -/
def resumeCoroutineWithNewAsyncStackRoot (a fp ra framePtr : Ptr)
    (resume : ThreadState → ThreadState) (s : ThreadState) :
    Option ThreadState :=
  let s1 := scopedCtor s a fp ra
  let s2 := activateFrame s1 a framePtr
  scopedDtorChecked (resume s2) a

/-- A well-nested sequence of scoped-root installations on one thread, as
produced by the RAII discipline: `scoped a fp ra inner rest` is the block
`{ ScopedAsyncStackRoot root_@a(fp, ra); inner } rest`, where the scoped
root lives at address `a`. -/
inductive Prog where
  | nil : Prog
  | scoped (a fp ra : Ptr) (inner rest : Prog) : Prog

/-- Addresses of all scoped roots installed by a program. -/
def addrs : Prog → List Ptr
  | .nil => []
  | .scoped a _ _ inner rest => a :: (addrs inner ++ addrs rest)

/-- The addresses used by a program are realizable: a scoped root is a live
stack object distinct from every scoped root of its inner block. -/
def Fresh : Prog → Prop
  | .nil => True
  | .scoped a _ _ inner rest => a ∉ addrs inner ∧ Fresh inner ∧ Fresh rest

/-- Debug-build execution of a well-nested sequence of scoped-root
installations: each destructor checks its two assertions; `none` models an
assertion failure. -/
def execChecked : Prog → ThreadState → Option ThreadState
  | .nil, s => some s
  | .scoped a fp ra inner rest, s => do
      let s2 ← execChecked inner (scopedCtor s a fp ra)
      let s3 ← scopedDtorChecked s2 a
      execChecked rest s3

theorem scopedCtor_current (s : ThreadState) (a fp ra : Ptr) :
    (scopedCtor s a fp ra).current = a := rfl

theorem scopedCtor_roots_self (s : ThreadState) (a fp ra : Ptr) :
    (scopedCtor s a fp ra).roots a =
      { topFrame := 0, nextRoot := s.current, stackFramePtr := fp,
        returnAddress := ra } := by
  simp [scopedCtor, holderSet, holderGet, setStackFrameContext]

theorem scopedCtor_roots_other (s : ThreadState) (a fp ra q : Ptr)
    (h : q ≠ a) : (scopedCtor s a fp ra).roots q = s.roots q := by
  simp [scopedCtor, holderSet, h]

theorem scopedDtor_current (s : ThreadState) (a : Ptr) :
    (scopedDtor s a).current = (s.roots a).nextRoot := rfl

theorem scopedDtor_roots (s : ThreadState) (a : Ptr) :
    (scopedDtor s a).roots = s.roots := rfl

theorem scopedDtorChecked_pass (s : ThreadState) (a : Ptr)
    (h1 : dtorOrderingAssert s a = true)
    (h2 : dtorTopFrameAssert s a = true) :
    scopedDtorChecked s a = some (scopedDtor s a) := by
  simp [scopedDtorChecked, h1, h2]

/-- Executing any fresh well-nested program in a debug build succeeds (every
destructor assertion passes), restores the thread's current-root pointer to
its initial value, and leaves every root object outside the program's
addresses untouched. -/
theorem execChecked_ok : ∀ (p : Prog) (s : ThreadState), Fresh p →
    ∃ t, execChecked p s = some t ∧ t.current = s.current ∧
      ∀ q, q ∉ addrs p → t.roots q = s.roots q
  | .nil, s, _ => ⟨s, rfl, rfl, fun _ _ => rfl⟩
  | .scoped a fp ra inner rest, s, ⟨ha, hinner, hrest⟩ => by
    obtain ⟨s2, h2, hc2, hr2⟩ := execChecked_ok inner (scopedCtor s a fp ra)
      hinner
    have hroots_a : s2.roots a = (scopedCtor s a fp ra).roots a := hr2 a ha
    have hord : dtorOrderingAssert s2 a = true := by
      simp [dtorOrderingAssert, holderGet, hc2, scopedCtor_current]
    have htop : dtorTopFrameAssert s2 a = true := by
      simp [dtorTopFrameAssert, hroots_a, scopedCtor_roots_self]
    obtain ⟨t, h4, hc4, hr4⟩ := execChecked_ok rest (scopedDtor s2 a) hrest
    refine ⟨t, ?_, ?_, ?_⟩
    · simp [execChecked, h2, scopedDtorChecked_pass s2 a hord htop, h4]
    · rw [hc4, scopedDtor_current, hroots_a, scopedCtor_roots_self]
    · intro q hq
      simp only [addrs, List.mem_cons, List.mem_append] at hq
      push_neg at hq
      obtain ⟨hqa, hqi, hqr⟩ := hq
      rw [hr4 q hqr, scopedDtor_roots, hr2 q hqi,
        scopedCtor_roots_other s a fp ra q hqa]

end AsyncStack

namespace AsyncStack

/-- C1: constructing a `ScopedAsyncStackRoot` at address `a` makes `a` the
thread's current root with `nextRoot` linked to the previously current
root; after any fresh well-nested inner activity, its destructor succeeds
and restores the thread's current-root pointer to exactly the root that was
current immediately before the construction (strict LIFO). -/
theorem scoped_root_lifo (a fp ra : Ptr) (inner : Prog) (s : ThreadState)
    (ha : a ∉ addrs inner) (hinner : Fresh inner) :
    (scopedCtor s a fp ra).current = a ∧
    ((scopedCtor s a fp ra).roots a).nextRoot = s.current ∧
    ∃ s2 s3, execChecked inner (scopedCtor s a fp ra) = some s2 ∧
      scopedDtorChecked s2 a = some s3 ∧ s3.current = s.current := by
  obtain ⟨s2, h2, hc2, hr2⟩ := execChecked_ok inner (scopedCtor s a fp ra)
    hinner
  have hroots_a : s2.roots a = (scopedCtor s a fp ra).roots a := hr2 a ha
  have hord : dtorOrderingAssert s2 a = true := by
    simp [dtorOrderingAssert, holderGet, hc2, scopedCtor_current]
  have htop : dtorTopFrameAssert s2 a = true := by
    simp [dtorTopFrameAssert, hroots_a, scopedCtor_roots_self]
  refine ⟨scopedCtor_current s a fp ra, ?_, s2, scopedDtor s2 a, h2,
    scopedDtorChecked_pass s2 a hord htop, ?_⟩
  · rw [scopedCtor_roots_self]
  · rw [scopedDtor_current, hroots_a, scopedCtor_roots_self]

/-- Witness for C1: a scoped root at address 1 with a nested scoped root at
address 2 as inner activity, starting from a fresh thread. -/
theorem scoped_root_lifo_witness :
    (scopedCtor initThreadState 1 7 8).current = 1 ∧
    ((scopedCtor initThreadState 1 7 8).roots 1).nextRoot =
      initThreadState.current ∧
    ∃ s2 s3,
      execChecked (Prog.scoped 2 0 0 Prog.nil Prog.nil)
        (scopedCtor initThreadState 1 7 8) = some s2 ∧
      scopedDtorChecked s2 1 = some s3 ∧
      s3.current = initThreadState.current :=
  scoped_root_lifo 1 7 8 (Prog.scoped 2 0 0 Prog.nil Prog.nil)
    initThreadState (by decide)
    ⟨List.not_mem_nil 2, trivial, trivial⟩

/-- C2: under the LIFO discipline with no frame left chained under any
scoped root (every fresh well-nested program), every destructor assertion
passes — the failure branch is unreachable; and destroying a scoped root
at `a` while another root is current trips the ordering assertion
`currentThreadAsyncStackRoot.get() == &root_`, so the debug-build
destructor fails. -/
theorem scoped_dtor_assert_discipline :
    (∀ (p : Prog) (s : ThreadState), Fresh p →
      (execChecked p s).isSome = true) ∧
    (∀ (t : ThreadState) (a : Ptr), t.current ≠ a →
      dtorOrderingAssert t a = false ∧ scopedDtorChecked t a = none) := by
  constructor
  · intro p s hp
    obtain ⟨t, ht, -, -⟩ := execChecked_ok p s hp
    simp [ht]
  · intro t a h
    have hb : dtorOrderingAssert t a = false := by
      simp [dtorOrderingAssert, holderGet, h]
    exact ⟨hb, by simp [scopedDtorChecked, hb]⟩

/-- Witness for C2: a doubly-nested program whose assertions all pass, and
the out-of-order scenario — two nested scoped roots (outer at 1, inner at
2) with the outer destroyed while the inner is still current — tripping
the ordering assertion. -/
theorem scoped_dtor_assert_discipline_witness :
    (execChecked
        (Prog.scoped 1 0 0 (Prog.scoped 2 0 0 Prog.nil Prog.nil) Prog.nil)
        initThreadState).isSome = true ∧
    (dtorOrderingAssert (scopedCtor (scopedCtor initThreadState 1 0 0) 2 0 0)
        1 = false ∧
      scopedDtorChecked (scopedCtor (scopedCtor initThreadState 1 0 0) 2 0 0)
        1 = none) :=
  ⟨scoped_dtor_assert_discipline.1
      (Prog.scoped 1 0 0 (Prog.scoped 2 0 0 Prog.nil Prog.nil) Prog.nil)
      initThreadState
      ⟨by decide, ⟨List.not_mem_nil 2, trivial, trivial⟩, trivial⟩,
    scoped_dtor_assert_discipline.2
      (scopedCtor (scopedCtor initThreadState 1 0 0) 2 0 0) 1 (by decide)⟩

/-- C6: `exchangeCurrentAsyncStackRoot(newRoot)` replaces the thread's
current root with `newRoot` (the single store of the thread-local pointer)
and returns the root that was current immediately before the call; the root
heap is untouched. -/
theorem exchange_root_spec (newRoot : Ptr) (s : ThreadState) :
    (exchangeCurrentAsyncStackRoot newRoot s).1 = s.current ∧
    (exchangeCurrentAsyncStackRoot newRoot s).2.current = newRoot ∧
    (exchangeCurrentAsyncStackRoot newRoot s).2.roots = s.roots ∧
    tryGetCurrentAsyncStackRoot (exchangeCurrentAsyncStackRoot newRoot s).2 =
      newRoot := by
  refine ⟨rfl, rfl, rfl, rfl⟩

/-- C7: when a root is installed, `getCurrentAsyncStackRoot` returns exactly
the root `tryGetCurrentAsyncStackRoot` returns; when no root is installed
the assertion trips (`none`), a contract violation rather than a
recoverable error. -/
theorem getCurrent_asserts_and_agrees (s : ThreadState) :
    (s.current ≠ 0 →
      getCurrentAsyncStackRoot s = some (tryGetCurrentAsyncStackRoot s)) ∧
    (s.current = 0 → getCurrentAsyncStackRoot s = none) := by
  constructor
  · intro h
    simp [getCurrentAsyncStackRoot, tryGetCurrentAsyncStackRoot, holderGet, h]
  · intro h
    simp [getCurrentAsyncStackRoot, tryGetCurrentAsyncStackRoot, holderGet, h]

/-- Witness for C7 at a concrete state with a root installed and at the
initial state with none installed. -/
theorem getCurrent_asserts_and_agrees_witness :
    (getCurrentAsyncStackRoot (holderSet initThreadState 5) =
      some (tryGetCurrentAsyncStackRoot (holderSet initThreadState 5))) ∧
    getCurrentAsyncStackRoot initThreadState = none :=
  ⟨(getCurrent_asserts_and_agrees (holderSet initThreadState 5)).1
      (by decide),
    (getCurrent_asserts_and_agrees initThreadState).2 rfl⟩

/-- C5: while the resumed work runs, the thread's current root is the newly
installed root `a`; and whenever the body is well-behaved — on return it has
left `a` current with an empty `topFrame` and has not relinked the root's
`nextRoot` (true both when the work completed and when it re-suspended) —
`resumeCoroutineWithNewAsyncStackRoot` returns with the thread's
current-root pointer exactly as it was before the call. -/
theorem resume_restores_root (a fp ra framePtr : Ptr)
    (resume : ThreadState → ThreadState) (s : ThreadState)
    (hcur :
      (resume (activateFrame (scopedCtor s a fp ra) a framePtr)).current = a)
    (htop :
      ((resume (activateFrame (scopedCtor s a fp ra) a framePtr)).roots
          a).topFrame = 0)
    (hnext :
      ((resume (activateFrame (scopedCtor s a fp ra) a framePtr)).roots
          a).nextRoot =
        ((activateFrame (scopedCtor s a fp ra) a framePtr).roots
          a).nextRoot) :
    tryGetCurrentAsyncStackRoot
        (activateFrame (scopedCtor s a fp ra) a framePtr) = a ∧
    ∃ t, resumeCoroutineWithNewAsyncStackRoot a fp ra framePtr resume s =
        some t ∧
      t.current = s.current := by
  have hact :
      ((activateFrame (scopedCtor s a fp ra) a framePtr).roots a).nextRoot =
        s.current := by
    simp [activateFrame, scopedCtor_roots_self]
  have hord :
      dtorOrderingAssert
        (resume (activateFrame (scopedCtor s a fp ra) a framePtr)) a =
        true := by
    simp [dtorOrderingAssert, holderGet, hcur]
  have htop' :
      dtorTopFrameAssert
        (resume (activateFrame (scopedCtor s a fp ra) a framePtr)) a =
        true := by
    simp [dtorTopFrameAssert, htop]
  refine ⟨?_, ?_⟩
  · simp [tryGetCurrentAsyncStackRoot, holderGet, activateFrame,
      scopedCtor_current]
  · refine ⟨scopedDtor
      (resume (activateFrame (scopedCtor s a fp ra) a framePtr)) a, ?_, ?_⟩
    · simp [resumeCoroutineWithNewAsyncStackRoot,
        scopedDtorChecked_pass _ a hord htop']
    · rw [scopedDtor_current, hnext, hact]

/-- Witness for C5: a concrete body that pops the frame (clears the root's
`topFrame`) before returning, starting from a fresh thread. -/
theorem resume_restores_root_witness :
    tryGetCurrentAsyncStackRoot
        (activateFrame (scopedCtor initThreadState 1 2 3) 1 4) = 1 ∧
    ∃ t, resumeCoroutineWithNewAsyncStackRoot 1 2 3 4
          (fun u => { u with roots := fun q =>
            if q = 1 then { u.roots q with topFrame := 0 } else u.roots q })
          initThreadState = some t ∧
      t.current = initThreadState.current :=
  resume_restores_root 1 2 3 4
    (fun u => { u with roots := fun q =>
      if q = 1 then { u.roots q with topFrame := 0 } else u.roots q })
    initThreadState rfl (by simp) (by simp [activateFrame])

/-- C9: each installation write of the thread-local current-root pointer —
the scoped constructor's install and `exchangeCurrentAsyncStackRoot` — is a
release-ordered store, while the scoped destructor's restore of the
previous root is the relaxed store; these are the only stores each of those
paths performs. -/
theorem write_ordering_discipline (s : ThreadState) (a fp ra newRoot : Ptr) :
    (scopedCtor s a fp ra).writes = s.writes ++ [(a, MemOrder.release)] ∧
    (exchangeCurrentAsyncStackRoot newRoot s).2.writes =
      s.writes ++ [(newRoot, MemOrder.release)] ∧
    (scopedDtor s a).writes =
      s.writes ++ [((s.roots a).nextRoot, MemOrder.relaxed)] :=
  ⟨rfl, rfl, rfl⟩

/-- Insertion into the `std::unordered_set` leaf registry: a no-op when the
element is already present. -/
def setInsert (p : Ptr) (l : List Ptr) : List Ptr :=
  if p ∈ l then l else l ++ [p]

/-- Erasure from the `std::unordered_set` leaf registry: removes the
element's (unique) occurrence. -/
def setErase (p : Ptr) (l : List Ptr) : List Ptr :=
  l.filter (fun q => q != p)

/-- The process-wide suspended-leaf instrumentation state: the heap of
`AsyncStackFrame` objects indexed by address, and the registry set
`suspendedLeafFrames()` (the instrumented, `kIsDebug` build, in which the
registry is mutated). -/
structure LeafState where
  heap : Ptr → AsyncStackFrame
  registry : List Ptr

/-- The initial instrumentation state: every frame is default-constructed
(`stackRoot == nullptr`) and the registry is empty. -/
def initLeafState : LeafState :=
  { heap := fun _ => {}, registry := [] }

/-- `folly::activateSuspendedLeaf`: sets the frame's `stackRoot` to the
suspended-frame cookie and inserts the frame's address into the registry
under the write lock. -/
def activateSuspendedLeaf (cookie p : Ptr) (s : LeafState) : LeafState :=
  { heap := fun q =>
      if q = p then { s.heap p with stackRoot := cookie } else s.heap q,
    registry := setInsert p s.registry }

/-- `folly::isSuspendedLeafActive`: whether the frame's `stackRoot` equals
the suspended-frame cookie. -/
def isSuspendedLeafActive (cookie p : Ptr) (s : LeafState) : Bool :=
  (s.heap p).stackRoot == cookie

/-- `folly::deactivateSuspendedLeaf`: clears the frame's `stackRoot` to
`nullptr` and erases the frame's address from the registry under the write
lock. -/
def deactivateSuspendedLeaf (p : Ptr) (s : LeafState) : LeafState :=
  { heap := fun q =>
      if q = p then { s.heap p with stackRoot := 0 } else s.heap q,
    registry := setErase p s.registry }

/-- `folly::sweepSuspendedLeafFrames`: under the read lock, the visitor is
invoked on each element of the registry in turn (`std::for_each`); the
result is the list of visited frame addresses. -/
def sweepSuspendedLeafFrames (s : LeafState) : List Ptr := s.registry

/-- Activating a batch of frames, one `activateSuspendedLeaf` call each. -/
def activateAll (cookie : Ptr) (as : List Ptr) (s : LeafState) : LeafState :=
  as.foldl (fun t p => activateSuspendedLeaf cookie p t) s

/-- Deactivating a batch of frames, one `deactivateSuspendedLeaf` call
each. -/
def deactivateAll (bs : List Ptr) (s : LeafState) : LeafState :=
  bs.foldl (fun t p => deactivateSuspendedLeaf p t) s

/-- C3: a frame whose `stackRoot` is unset reports `isSuspendedLeafActive`
= false; after `activateSuspendedLeaf` it reports true; after
`deactivateSuspendedLeaf` it reports false again, with `stackRoot` back to
unset. -/
theorem suspended_leaf_roundtrip (cookie p : Ptr) (s : LeafState)
    (hcookie : cookie ≠ 0) (hunset : (s.heap p).stackRoot = 0) :
    isSuspendedLeafActive cookie p s = false ∧
    isSuspendedLeafActive cookie p (activateSuspendedLeaf cookie p s) =
      true ∧
    isSuspendedLeafActive cookie p
      (deactivateSuspendedLeaf p (activateSuspendedLeaf cookie p s)) =
      false ∧
    ((deactivateSuspendedLeaf p (activateSuspendedLeaf cookie p s)).heap
        p).stackRoot = 0 := by
  have hc : ¬ (0 = cookie) := fun h => hcookie h.symm
  refine ⟨?_, ?_, ?_, ?_⟩ <;>
    simp [isSuspendedLeafActive, activateSuspendedLeaf,
      deactivateSuspendedLeaf, hunset, hc]

/-- Witness for C3 at frame address 0 with cookie 1, from the initial
state. -/
theorem suspended_leaf_roundtrip_witness :
    isSuspendedLeafActive 1 0 initLeafState = false ∧
    isSuspendedLeafActive 1 0 (activateSuspendedLeaf 1 0 initLeafState) =
      true ∧
    isSuspendedLeafActive 1 0
      (deactivateSuspendedLeaf 0 (activateSuspendedLeaf 1 0 initLeafState)) =
      false ∧
    ((deactivateSuspendedLeaf 0
        (activateSuspendedLeaf 1 0 initLeafState)).heap 0).stackRoot = 0 :=
  suspended_leaf_roundtrip 1 0 initLeafState (by decide) rfl

/-- Counterexample to C8 as stated: the cookie is the value of
`std::hash<std::type_index>` applied to a local tag type, and nothing in
the code makes that hash distinct from `nullptr` or from real root
addresses.  If the process's hash value is `0` (the unset value), a frame
whose root field is unset is reported as an active suspended leaf, so the
encoding of the three states is ambiguous. -/
theorem sentinel_collision_counterexample :
    (initLeafState.heap 0).stackRoot = 0 ∧
    isSuspendedLeafActive 0 0 initLeafState = true :=
  ⟨rfl, rfl⟩

/-- C8 (amended): `isSuspendedLeafActive` reports exactly the frames whose
root field holds the cookie; consequently, whenever the process's cookie
value is distinct from the unset value and from the address a frame is
bound to — which the code does not itself guarantee — an unset or bound
frame is never reported as a suspended leaf. -/
theorem sentinel_tristate_amended (cookie p : Ptr) (s : LeafState) :
    (isSuspendedLeafActive cookie p s = true ↔
      (s.heap p).stackRoot = cookie) ∧
    (cookie ≠ 0 → (s.heap p).stackRoot = 0 →
      isSuspendedLeafActive cookie p s = false) ∧
    (∀ r, r ≠ cookie → (s.heap p).stackRoot = r →
      isSuspendedLeafActive cookie p s = false) := by
  refine ⟨beq_iff_eq, ?_, ?_⟩
  · intro hc h
    have hc2 : ¬ ((0 : Ptr) = cookie) := fun hh => hc hh.symm
    simp [isSuspendedLeafActive, h, hc2]
  · intro r hr h
    simp [isSuspendedLeafActive, h, hr]

/-- Witness for C8's amended claim: with cookie 1, an activated frame
reports true, an unset frame reports false, and a frame bound to root 2
reports false. -/
theorem sentinel_tristate_amended_witness :
    isSuspendedLeafActive 1 0 (activateSuspendedLeaf 1 0 initLeafState) =
      true ∧
    isSuspendedLeafActive 1 0 initLeafState = false ∧
    isSuspendedLeafActive 1 0 (activateSuspendedLeaf 2 0 initLeafState) =
      false :=
  ⟨(sentinel_tristate_amended 1 0
      (activateSuspendedLeaf 1 0 initLeafState)).1.mpr rfl,
    (sentinel_tristate_amended 1 0 initLeafState).2.1 (by decide) rfl,
    (sentinel_tristate_amended 1 0
      (activateSuspendedLeaf 2 0 initLeafState)).2.2 2 (by decide) rfl⟩

/-- C10: `activateSuspendedLeaf` and `deactivateSuspendedLeaf` change only
the given frame's `stackRoot` field (besides the registry): every other
frame is untouched, and the frame's own parent link and return-address
slot are unchanged. -/
theorem leaf_ops_touch_only_root_field (cookie p : Ptr) (s : LeafState) :
    (∀ q, q ≠ p →
      (activateSuspendedLeaf cookie p s).heap q = s.heap q ∧
      (deactivateSuspendedLeaf p s).heap q = s.heap q) ∧
    ((activateSuspendedLeaf cookie p s).heap p).parentFrame =
      (s.heap p).parentFrame ∧
    ((activateSuspendedLeaf cookie p s).heap p).instructionPointer =
      (s.heap p).instructionPointer ∧
    ((deactivateSuspendedLeaf p s).heap p).parentFrame =
      (s.heap p).parentFrame ∧
    ((deactivateSuspendedLeaf p s).heap p).instructionPointer =
      (s.heap p).instructionPointer := by
  refine ⟨fun q hq => ?_, ?_, ?_, ?_, ?_⟩ <;>
    simp [activateSuspendedLeaf, deactivateSuspendedLeaf, *]

theorem mem_setInsert (q p : Ptr) (l : List Ptr) :
    q ∈ setInsert p l ↔ q ∈ l ∨ q = p := by
  by_cases h : p ∈ l
  · simp only [setInsert, if_pos h]
    constructor
    · exact Or.inl
    · rintro (hq | rfl)
      · exact hq
      · exact h
  · simp [setInsert, h]

theorem nodup_setInsert (p : Ptr) (l : List Ptr) (h : l.Nodup) :
    (setInsert p l).Nodup := by
  by_cases hp : p ∈ l
  · simpa [setInsert, hp] using h
  · simp [setInsert, hp, List.nodup_append, h]

theorem mem_setErase (q p : Ptr) (l : List Ptr) :
    q ∈ setErase p l ↔ q ∈ l ∧ q ≠ p := by
  simp [setErase, List.mem_filter]

theorem nodup_setErase (p : Ptr) (l : List Ptr) (h : l.Nodup) :
    (setErase p l).Nodup :=
  h.filter _

theorem activateAll_cons (cookie p : Ptr) (as : List Ptr) (s : LeafState) :
    activateAll cookie (p :: as) s =
      activateAll cookie as (activateSuspendedLeaf cookie p s) := rfl

theorem deactivateAll_cons (p : Ptr) (bs : List Ptr) (s : LeafState) :
    deactivateAll (p :: bs) s =
      deactivateAll bs (deactivateSuspendedLeaf p s) := rfl

theorem activateAll_registry_mem (cookie : Ptr) :
    ∀ (as : List Ptr) (s : LeafState) (q : Ptr),
      q ∈ (activateAll cookie as s).registry ↔ q ∈ s.registry ∨ q ∈ as
  | [], s, q => by simp [activateAll]
  | p :: as, s, q => by
    rw [activateAll_cons,
      activateAll_registry_mem cookie as (activateSuspendedLeaf cookie p s) q]
    simp only [activateSuspendedLeaf, mem_setInsert, List.mem_cons]
    tauto

theorem activateAll_registry_nodup (cookie : Ptr) :
    ∀ (as : List Ptr) (s : LeafState), s.registry.Nodup →
      (activateAll cookie as s).registry.Nodup
  | [], _, h => h
  | p :: as, s, h =>
    activateAll_registry_nodup cookie as (activateSuspendedLeaf cookie p s)
      (nodup_setInsert p s.registry h)

theorem deactivateAll_registry_mem :
    ∀ (bs : List Ptr) (s : LeafState) (q : Ptr),
      q ∈ (deactivateAll bs s).registry ↔ q ∈ s.registry ∧ q ∉ bs
  | [], s, q => by simp [deactivateAll]
  | p :: bs, s, q => by
    rw [deactivateAll_cons,
      deactivateAll_registry_mem bs (deactivateSuspendedLeaf p s) q]
    simp only [deactivateSuspendedLeaf, mem_setErase, List.mem_cons]
    tauto

theorem deactivateAll_registry_nodup :
    ∀ (bs : List Ptr) (s : LeafState), s.registry.Nodup →
      (deactivateAll bs s).registry.Nodup
  | [], _, h => h
  | p :: bs, s, h =>
    deactivateAll_registry_nodup bs (deactivateSuspendedLeaf p s)
      (nodup_setErase p s.registry h)

theorem activateAll_stackRoot (cookie : Ptr) :
    ∀ (as : List Ptr) (s : LeafState) (q : Ptr),
      ((activateAll cookie as s).heap q).stackRoot =
        if q ∈ as then cookie else (s.heap q).stackRoot
  | [], s, q => by simp [activateAll]
  | p :: as, s, q => by
    rw [activateAll_cons,
      activateAll_stackRoot cookie as (activateSuspendedLeaf cookie p s) q]
    by_cases hqa : q ∈ as
    · simp [hqa, List.mem_cons]
    · by_cases hqp : q = p
      · subst hqp
        simp [hqa, activateSuspendedLeaf]
      · simp [hqa, hqp, activateSuspendedLeaf]

theorem deactivateAll_stackRoot :
    ∀ (bs : List Ptr) (s : LeafState) (q : Ptr),
      ((deactivateAll bs s).heap q).stackRoot =
        if q ∈ bs then 0 else (s.heap q).stackRoot
  | [], s, q => by simp [deactivateAll]
  | p :: bs, s, q => by
    rw [deactivateAll_cons,
      deactivateAll_stackRoot bs (deactivateSuspendedLeaf p s) q]
    by_cases hqb : q ∈ bs
    · simp [hqb, List.mem_cons]
    · by_cases hqp : q = p
      · subst hqp
        simp [hqb, deactivateSuspendedLeaf]
      · simp [hqb, hqp, deactivateSuspendedLeaf]

/-- C4: after activating the distinct frames `as` as suspended leaves and
deactivating the sublist `bs` of them, a sweep invokes the visitor exactly
once per still-suspended frame — no duplicates, no omissions — the
registry's membership coincides with the frames whose `stackRoot` holds
the sentinel, and the number of visited frames is `N − M`. -/
theorem sweep_visits_exactly_suspended (cookie : Ptr) (as bs : List Ptr)
    (hcookie : cookie ≠ 0) (ha : as.Nodup) (hb : bs.Nodup)
    (hsub : bs ⊆ as) :
    (sweepSuspendedLeafFrames
        (deactivateAll bs (activateAll cookie as initLeafState))).Nodup ∧
    (∀ q, q ∈ sweepSuspendedLeafFrames
          (deactivateAll bs (activateAll cookie as initLeafState)) ↔
        q ∈ as ∧ q ∉ bs) ∧
    (∀ q, q ∈ sweepSuspendedLeafFrames
          (deactivateAll bs (activateAll cookie as initLeafState)) ↔
        isSuspendedLeafActive cookie q
          (deactivateAll bs (activateAll cookie as initLeafState)) = true) ∧
    (sweepSuspendedLeafFrames
        (deactivateAll bs (activateAll cookie as initLeafState))).length =
      as.length - bs.length := by
  have hmem : ∀ q, q ∈ sweepSuspendedLeafFrames
      (deactivateAll bs (activateAll cookie as initLeafState)) ↔
      q ∈ as ∧ q ∉ bs := by
    intro q
    rw [sweepSuspendedLeafFrames, deactivateAll_registry_mem,
      activateAll_registry_mem]
    simp [initLeafState]
  have hnd : (sweepSuspendedLeafFrames
      (deactivateAll bs (activateAll cookie as initLeafState))).Nodup :=
    deactivateAll_registry_nodup bs _
      (activateAll_registry_nodup cookie as initLeafState List.nodup_nil)
  have hstate : ∀ q, q ∈ sweepSuspendedLeafFrames
      (deactivateAll bs (activateAll cookie as initLeafState)) ↔
      isSuspendedLeafActive cookie q
        (deactivateAll bs (activateAll cookie as initLeafState)) = true := by
    intro q
    rw [hmem q, isSuspendedLeafActive, beq_iff_eq, deactivateAll_stackRoot,
      activateAll_stackRoot]
    by_cases hqb : q ∈ bs
    · have hc : ¬ ((0 : Ptr) = cookie) := fun h => hcookie h.symm
      simp [hqb, hc]
    · by_cases hqa : q ∈ as
      · simp [hqb, hqa]
      · have hc : ¬ ((0 : Ptr) = cookie) := fun h => hcookie h.symm
        simp [hqb, hqa, initLeafState, hc]
  have hsub2 : bs.toFinset ⊆ as.toFinset := by
    intro x hx
    rw [List.mem_toFinset] at hx ⊢
    exact hsub hx
  have hfin : (sweepSuspendedLeafFrames
      (deactivateAll bs (activateAll cookie as initLeafState))).toFinset =
      as.toFinset \ bs.toFinset := by
    ext x
    simp [List.mem_toFinset, Finset.mem_sdiff, hmem x]
  have hlen : (sweepSuspendedLeafFrames
      (deactivateAll bs (activateAll cookie as initLeafState))).length =
      as.length - bs.length := by
    rw [← List.toFinset_card_of_nodup hnd, hfin, Finset.card_sdiff hsub2,
      List.toFinset_card_of_nodup ha, List.toFinset_card_of_nodup hb]
  exact ⟨hnd, hmem, hstate, hlen⟩

/-- Witness for C4: activate frames 1, 2, 3 with cookie 7, deactivate
frame 2; the sweep has no duplicates, visits frame 3 (still suspended,
sentinel set) and visits `3 − 1` frames. -/
theorem sweep_visits_exactly_suspended_witness :
    (sweepSuspendedLeafFrames
        (deactivateAll [2] (activateAll 7 [1, 2, 3] initLeafState))).Nodup ∧
    (3 ∈ sweepSuspendedLeafFrames
          (deactivateAll [2] (activateAll 7 [1, 2, 3] initLeafState)) ↔
        3 ∈ [1, 2, 3] ∧ 3 ∉ [2]) ∧
    (2 ∈ sweepSuspendedLeafFrames
          (deactivateAll [2] (activateAll 7 [1, 2, 3] initLeafState)) ↔
        isSuspendedLeafActive 7 2
          (deactivateAll [2] (activateAll 7 [1, 2, 3] initLeafState)) =
          true) ∧
    (sweepSuspendedLeafFrames
        (deactivateAll [2] (activateAll 7 [1, 2, 3] initLeafState))).length =
      [1, 2, 3].length - [2].length := by
  have h := sweep_visits_exactly_suspended 7 [1, 2, 3] [2] (by decide)
    (by decide) (by decide)
    (by intro a ha; simp only [List.mem_singleton] at ha; simp [ha])
  exact ⟨h.1, h.2.1 3, h.2.2.1 2, h.2.2.2⟩

/-- Witness for C10 at frame address 0 (with untouched frame 1), cookie 1,
from the initial state. -/
theorem leaf_ops_touch_only_root_field_witness :
    ((activateSuspendedLeaf 1 0 initLeafState).heap 1 =
        initLeafState.heap 1 ∧
      (deactivateSuspendedLeaf 0 initLeafState).heap 1 =
        initLeafState.heap 1) ∧
    ((activateSuspendedLeaf 1 0 initLeafState).heap 0).parentFrame =
      (initLeafState.heap 0).parentFrame ∧
    ((activateSuspendedLeaf 1 0 initLeafState).heap 0).instructionPointer =
      (initLeafState.heap 0).instructionPointer ∧
    ((deactivateSuspendedLeaf 0 initLeafState).heap 0).parentFrame =
      (initLeafState.heap 0).parentFrame ∧
    ((deactivateSuspendedLeaf 0 initLeafState).heap 0).instructionPointer =
      (initLeafState.heap 0).instructionPointer :=
  ⟨(leaf_ops_touch_only_root_field 1 0 initLeafState).1 1 (by decide),
    (leaf_ops_touch_only_root_field 1 0 initLeafState).2⟩

end AsyncStack
